import Mathlib

/-!
Verification of the WowNum feedback-collector service.

The definitions below are a shallow embedding of the Python source:
`app/schemas.py` (pydantic request validation), `app/models.py` (the two
relational tables), `app/routers/feedback.py` (the intake, export and
stats handlers) and `app/security.py` (rate-limit configuration).
-/

namespace WowNum

/-! ### JSON values, as built by the handlers before `json.dumps` -/

/-- A JSON value of the shapes the service produces: `null`, strings,
integers, arrays and objects with insertion-ordered fields (Python dicts
preserve insertion order). -/
inductive Json where
  | null
  | str (s : String)
  | int (n : Int)
  | arr (elems : List Json)
  | obj (fields : List (String × Json))

/-- Lowercase hexadecimal digit, as used by `json.dumps` unicode escapes. -/
def hexDigit (n : Nat) : Char :=
  if n < 10 then Char.ofNat (48 + n) else Char.ofNat (87 + n)

/-- Four lowercase hex digits. -/
def hex4 (n : Nat) : String :=
  String.mk [hexDigit (n / 4096 % 16), hexDigit (n / 256 % 16),
             hexDigit (n / 16 % 16), hexDigit (n % 16)]

/-- Escape one character the way `json.dumps` does with its default
`ensure_ascii=True`: short escapes for the common control characters,
`\uXXXX` (with surrogate pairs above the BMP) for everything outside
the printable ASCII range. -/
def escapeJsonChar (c : Char) : String :=
  if c = '"' then "\\\""
  else if c = '\\' then "\\\\"
  else if c = '\n' then "\\n"
  else if c = '\r' then "\\r"
  else if c = '\t' then "\\t"
  else if c.toNat = 8 then "\\b"
  else if c.toNat = 12 then "\\f"
  else if c.toNat < 32 ∨ 126 < c.toNat then
    if c.toNat < 65536 then "\\u" ++ hex4 c.toNat
    else
      "\\u" ++ hex4 (55296 + (c.toNat - 65536) / 1024) ++
      "\\u" ++ hex4 (56320 + (c.toNat - 65536) % 1024)
  else String.mk [c]

/-- `json.dumps` rendering of a string. -/
def encodeJsonString (s : String) : String :=
  "\"" ++ String.join (s.data.map escapeJsonChar) ++ "\""

mutual

/-- `json.dumps` with its default separators (a comma-space between
items, a colon-space between a key and its value). -/
def Json.dumps : Json → String
  | .null => "null"
  | .str s => encodeJsonString s
  | .int n => toString n
  | .arr xs => "[" ++ Json.dumpsElems xs ++ "]"
  | .obj fs => "\x7b" ++ Json.dumpsFields fs ++ "\x7d"

/-- Comma-separated rendering of array elements. -/
def Json.dumpsElems : List Json → String
  | [] => ""
  | [x] => Json.dumps x
  | x :: y :: rest => Json.dumps x ++ ", " ++ Json.dumpsElems (y :: rest)

/-- Comma-separated rendering of object fields. -/
def Json.dumpsFields : List (String × Json) → String
  | [] => ""
  | [(k, v)] => encodeJsonString k ++ ": " ++ Json.dumps v
  | (k, v) :: f :: rest =>
      encodeJsonString k ++ ": " ++ Json.dumps v ++ ", " ++ Json.dumpsFields (f :: rest)

end

/-- The field list of a JSON object (empty for non-objects). -/
def Json.fields : Json → List (String × Json)
  | .obj fs => fs
  | _ => []

/-! ### Request schemas (`app/schemas.py`) -/

/-- `DishPortion`: a dish name with its weight in grams. -/
structure DishPortion where
  name : String
  grams : Int
deriving DecidableEq

/-- `IngredientAdjustmentIn`: one per-ingredient delta of a correction. -/
structure IngredientAdjustmentIn where
  ingredient : String
  deltaGrams : Int
  notes : Option String
deriving DecidableEq

/-- `CorrectionIn`: a validated correction payload. -/
structure CorrectionIn where
  imageId : String
  original : DishPortion
  corrected : DishPortion
  adjustments : Option (List IngredientAdjustmentIn)
deriving DecidableEq

/-! Raw (pre-validation) payloads.  A missing key is `none`; `extraFields`
lists the keys of the object that are not part of the schema.  pydantic
ignores unknown keys on `DishPortion` and `IngredientAdjustmentIn` (the
default `extra` policy) and rejects them on `CorrectionIn`, which sets
`model_config = ConfigDict(extra="forbid")`. -/

/-- Raw dish-portion object of a request body. -/
structure RawDishPortion where
  name : Option String
  grams : Option Int
  extraFields : List String
deriving DecidableEq

/-- Raw adjustment object of a request body. -/
structure RawAdjustment where
  ingredient : Option String
  deltaGrams : Option Int
  notes : Option String
  extraFields : List String
deriving DecidableEq

/-- Raw top-level correction object of a request body. -/
structure RawCorrection where
  imageId : Option String
  original : Option RawDishPortion
  corrected : Option RawDishPortion
  adjustments : Option (List RawAdjustment)
  extraFields : List String
deriving DecidableEq

/-- Validation of a `DishPortion`: `name` required with 1 to 200
characters, `grams` required in `[1, 10000]`.  Unknown keys of the
nested object are ignored. -/
def validateDishPortion (r : RawDishPortion) : Option DishPortion :=
  match r.name, r.grams with
  | some nm, some g =>
      if 1 ≤ nm.length ∧ nm.length ≤ 200 ∧ 1 ≤ g ∧ g ≤ 10000 then
        some ⟨nm, g⟩
      else none
  | _, _ => none

/-- The `notes` field is optional and, when present, at most 500
characters long. -/
def notesOk : Option String → Prop
  | none => True
  | some n => n.length ≤ 500

instance (o : Option String) : Decidable (notesOk o) :=
  match o with
  | none => .isTrue trivial
  | some n => inferInstanceAs (Decidable (n.length ≤ 500))

/-- Validation of an `IngredientAdjustmentIn`: `ingredient` required with
1 to 100 characters, `deltaGrams` required and unbounded, `notes`
optional with at most 500 characters.  Unknown keys are ignored. -/
def validateAdjustment (r : RawAdjustment) : Option IngredientAdjustmentIn :=
  match r.ingredient, r.deltaGrams with
  | some ing, some dg =>
      if 1 ≤ ing.length ∧ ing.length ≤ 100 ∧ notesOk r.notes then
        some ⟨ing, dg, r.notes⟩
      else none
  | _, _ => none

/-- Validation of the adjustment list: every element must validate. -/
def validateAdjustments : List RawAdjustment → Option (List IngredientAdjustmentIn)
  | [] => some []
  | a :: rest =>
      match validateAdjustment a, validateAdjustments rest with
      | some v, some vs => some (v :: vs)
      | _, _ => none

/-- Validation of the optional adjustment list (absent is allowed). -/
def validateOptAdjustments : Option (List RawAdjustment) →
    Option (Option (List IngredientAdjustmentIn))
  | none => some none
  | some l => (validateAdjustments l).map some

/-- Validation of a `CorrectionIn` request body: unknown top-level keys
are rejected (`extra="forbid"`), `imageId` required with 1 to 200
characters, `original` and `corrected` required valid dish portions,
`adjustments` optional list of valid adjustments. -/
def validateCorrectionIn (r : RawCorrection) : Option CorrectionIn :=
  if r.extraFields = [] then
    match r.imageId with
    | none => none
    | some img =>
      if 1 ≤ img.length ∧ img.length ≤ 200 then
        match r.original with
        | none => none
        | some o =>
          match validateDishPortion o with
          | none => none
          | some op =>
            match r.corrected with
            | none => none
            | some c =>
              match validateDishPortion c with
              | none => none
              | some cp =>
                match validateOptAdjustments r.adjustments with
                | none => none
                | some vadj => some ⟨img, op, cp, vadj⟩
      else none
  else none

/-! ### Relational model (`app/models.py`) -/

/-- A row of the `feedback_corrections` table.  `created_at` is the ISO
timestamp text produced by `datetime.isoformat` (kept abstract). -/
structure FeedbackCorrection where
  id : Nat
  image_id : String
  original_name : String
  original_grams : Int
  corrected_name : String
  corrected_grams : Int
  created_at : String
deriving DecidableEq

/-- A row of the `ingredient_adjustments` table. -/
structure IngredientAdjustment where
  correction_id : Nat
  ingredient : String
  delta_grams : Int
  notes : Option String
deriving DecidableEq

/-- The relational store: the two tables (rows in insertion order) and
the next autoincrement id of `feedback_corrections`. -/
structure Store where
  corrections : List FeedbackCorrection
  adjustments : List IngredientAdjustment
  next_id : Nat
deriving DecidableEq

/-- A store holding no rows; SQLite assigns ids starting at 1. -/
def Store.empty : Store := ⟨[], [], 1⟩

/-- Store well-formedness: every correction id was assigned below the
autoincrement counter, ids are unique (primary key), and every
adjustment references an already assigned correction id. -/
def Store.WF (s : Store) : Prop :=
  (∀ c ∈ s.corrections, c.id < s.next_id) ∧
  (s.corrections.map (·.id)).Nodup ∧
  (∀ a ∈ s.adjustments, a.correction_id < s.next_id)

/-! ### Correction intake (`post_correction` in `app/routers/feedback.py`) -/

/-- Where, if anywhere, the storage layer raises during the handler body:
at `db.flush()`, at `db.commit()`, or at the `db.refresh()` calls that
follow a successful commit. -/
inductive FailPoint where
  | noFail
  | atFlush
  | atCommit
  | atRefresh
deriving DecidableEq

/-- Adjustment output item of `CorrectionOut`. -/
structure IngredientAdjustmentOut where
  ingredient : String
  deltaGrams : Int
  notes : Option String
deriving DecidableEq

/-- `CorrectionOut`: the 201 response body of the intake handler. -/
structure CorrectionOut where
  id : Nat
  imageId : String
  original : DishPortion
  corrected : DishPortion
  adjustments : Option (List IngredientAdjustmentOut)
  createdAt : String
deriving DecidableEq

/-- The HTTP outcome of a POST `/correction` request. -/
inductive PostResponse where
  | created (body : CorrectionOut)
  | validationError
  | serverError
deriving DecidableEq

/-- The correction row the handler inserts for a validated payload. -/
def newCorrectionRow (s : Store) (p : CorrectionIn) (now : String) : FeedbackCorrection :=
  ⟨s.next_id, p.imageId, p.original.name, p.original.grams,
   p.corrected.name, p.corrected.grams, now⟩

/-- The adjustment rows the handler inserts for a validated payload, in
submission order (`if payload.adjustments:` skips `None` and `[]`). -/
def newAdjustmentRows (cid : Nat) (p : CorrectionIn) : List IngredientAdjustment :=
  (p.adjustments.getD []).map (fun a => ⟨cid, a.ingredient, a.deltaGrams, a.notes⟩)

/-- The handler body of `post_correction`, acting on a validated
payload.  The whole body is wrapped in try/except: an exception raised
before or at `db.commit()` triggers `db.rollback()`, leaves the store
unchanged and yields HTTP 500; once `db.commit()` succeeded the row and
its adjustments are durable, and a later exception (`atRefresh`) still
yields HTTP 500 without undoing them. -/
def post_correction (s : Store) (p : CorrectionIn) (now : String) (fp : FailPoint) :
    Store × PostResponse :=
  match fp with
  | .atFlush => (s, .serverError)
  | .atCommit => (s, .serverError)
  | .atRefresh =>
      (⟨s.corrections ++ [newCorrectionRow s p now],
        s.adjustments ++ newAdjustmentRows s.next_id p, s.next_id + 1⟩, .serverError)
  | .noFail =>
      let outAdjs := (newAdjustmentRows s.next_id p).map
        (fun a => IngredientAdjustmentOut.mk a.ingredient a.delta_grams a.notes)
      (⟨s.corrections ++ [newCorrectionRow s p now],
        s.adjustments ++ newAdjustmentRows s.next_id p, s.next_id + 1⟩,
       .created ⟨s.next_id, p.imageId, p.original, p.corrected,
                 if outAdjs = [] then none else some outAdjs, now⟩)

/-- A full POST `/correction` request: pydantic validation of the body
(HTTP 422 on failure, nothing persisted) followed by the handler body. -/
def post_correction_request (s : Store) (raw : RawCorrection) (now : String)
    (fp : FailPoint) : Store × PostResponse :=
  match validateCorrectionIn raw with
  | none => (s, .validationError)
  | some p => post_correction s p now fp

/-! ### Export engine (`export_feedback`, `_stream_jsonl`, `_stream_csv`) -/

/-- The adjustment rows of one correction, as loaded by
`selectinload(FeedbackCorrection.adjustments)`: the rows of the
adjustment table referencing it, in insertion order. -/
def loadAdjustments (s : Store) (cid : Nat) : List IngredientAdjustment :=
  s.adjustments.filter (fun a => a.correction_id == cid)

/-- The corrections in the order the export query yields them:
`ORDER BY feedback_corrections.id ASC`. -/
def exportRows (s : Store) : List FeedbackCorrection :=
  s.corrections.insertionSort (fun a b => a.id ≤ b.id)

/-- One export record: a correction row joined with its adjustments. -/
structure ExportRecord where
  row : FeedbackCorrection
  adjs : List IngredientAdjustment
deriving DecidableEq

/-- The ordered sequence of records both export formats draw from. -/
def exportRecords (s : Store) : List ExportRecord :=
  (exportRows s).map (fun c => ⟨c, loadAdjustments s c.id⟩)

/-- The JSON object `_stream_jsonl` serializes for one adjustment. -/
def adjJson (a : IngredientAdjustment) : Json :=
  .obj [("ingredient", .str a.ingredient), ("deltaGrams", .int a.delta_grams),
        ("notes", match a.notes with | some n => .str n | none => .null)]

/-- The JSON object `_stream_jsonl` builds for one correction: the five
scalar fields plus `createdAt` with a `Z` suffix, and an `adjustments`
array appended only when the correction has adjustment rows. -/
def jsonlObj (r : ExportRecord) : Json :=
  .obj ([("id", .int r.row.id), ("imageId", .str r.row.image_id),
         ("original", .obj [("name", .str r.row.original_name),
                            ("grams", .int r.row.original_grams)]),
         ("corrected", .obj [("name", .str r.row.corrected_name),
                             ("grams", .int r.row.corrected_grams)]),
         ("createdAt", .str (r.row.created_at ++ "Z"))] ++
        (if r.adjs = [] then []
         else [("adjustments", .arr (r.adjs.map adjJson))]))

/-- The whole JSONL stream: one `json.dumps` line per record. -/
def stream_jsonl (s : Store) : String :=
  String.join ((exportRecords s).map (fun r => Json.dumps (jsonlObj r) ++ "\n"))

/-- `csv.writer` minimal quoting: a cell is quoted only when it contains
the delimiter, the quote character or a line break; quote characters are
doubled inside a quoted cell. -/
def csvQuoteCell (cell : String) : String :=
  if cell.data.any (fun c => c == ',' || c == '"' || c == '\r' || c == '\n') then
    "\"" ++ String.join (cell.data.map
      (fun c => if c = '"' then "\"\"" else String.mk [c])) ++ "\""
  else cell

/-- One CSV line: quoted cells joined by commas, CRLF terminated. -/
def csvLine (cells : List String) : String :=
  String.intercalate "," (cells.map csvQuoteCell) ++ "\r\n"

/-- The fixed CSV header cells of `_stream_csv`. -/
def csvHeaderCells : List String :=
  ["id", "imageId", "original_name", "original_grams",
   "corrected_name", "corrected_grams", "adjustments", "createdAt"]

/-- The cells `_stream_csv` writes for one correction; the adjustments
cell is the `json.dumps` of the adjustment objects, or the empty string
when the correction has none. -/
def csvCells (r : ExportRecord) : List String :=
  [toString r.row.id, r.row.image_id, r.row.original_name,
   toString r.row.original_grams, r.row.corrected_name,
   toString r.row.corrected_grams,
   (if r.adjs = [] then "" else Json.dumps (.arr (r.adjs.map adjJson))),
   r.row.created_at ++ "Z"]

/-- The whole CSV stream: the header line then one line per record. -/
def stream_csv (s : Store) : String :=
  csvLine csvHeaderCells ++
    String.join ((exportRecords s).map (fun r => csvLine (csvCells r)))

/-- The HTTP outcome of a GET `/export` request. -/
inductive ExportResponse where
  | ok (body : String) (mediaType : String)
  | validationError
deriving DecidableEq

/-- The check FastAPI applies to a supplied `format` value: the query
parameter is declared with `pattern="^(csv|jsonl)$"`. -/
def formatPatternOk (v : String) : Bool :=
  v == "csv" || v == "jsonl"

/-- GET `/export`: the `format` query parameter defaults to `jsonl` when
absent; a supplied value must match the pattern or the request is
rejected with a validation error before the handler runs. -/
def export_feedback (fmt : Option String) (s : Store) : ExportResponse :=
  match fmt with
  | none => .ok (stream_jsonl s) "application/x-jsonlines"
  | some v =>
      if formatPatternOk v then
        if v == "jsonl" then .ok (stream_jsonl s) "application/x-jsonlines"
        else .ok (stream_csv s) "text/csv"
      else .validationError

/-! ### Stats aggregator (`feedback_stats`) -/

/-- Byte-order comparison of character lists, mirroring the collation
the stats query uses for `corrected_name ASC`. -/
def charListLe : List Char → List Char → Bool
  | [], _ => true
  | _ :: _, [] => false
  | a :: as, b :: bs =>
    if a.toNat < b.toNat then true
    else if b.toNat < a.toNat then false
    else charListLe as bs

/-- Lexicographic string comparison. -/
def strLe (a b : String) : Bool := charListLe a.data b.data

/-- The `corrected_name` column of every stored correction. -/
def correctedLabels (s : Store) : List String :=
  s.corrections.map (·.corrected_name)

/-- `COUNT(*)` of one group of the stats query. -/
def labelCount (s : Store) (l : String) : Nat :=
  (correctedLabels s).count l

/-- The distinct `corrected_name` values (the groups of `GROUP BY`). -/
def distinctLabels (s : Store) : List String :=
  (correctedLabels s).dedup

/-- The grouped rows before ordering: each distinct label with its count. -/
def statsGroups (s : Store) : List (String × Nat) :=
  (distinctLabels s).map (fun l => (l, labelCount s l))

/-- The ordering of the stats query:
`ORDER BY count DESC, corrected_name ASC`. -/
def statsRel (a b : String × Nat) : Prop :=
  b.2 < a.2 ∨ (a.2 = b.2 ∧ strLe a.1 b.1)

instance : DecidableRel statsRel := fun a b =>
  inferInstanceAs (Decidable (b.2 < a.2 ∨ (a.2 = b.2 ∧ strLe a.1 b.1)))

/-- `feedback_stats`: the grouped counts ordered by count descending
with ties broken by label ascending, limited to 5 rows.  Each result
pair is a `(label, count)` entry of the `top5` list. -/
def feedback_stats (s : Store) : List (String × Nat) :=
  ((statsGroups s).insertionSort statsRel).take 5

/-! ### Rate limiting (`app/security.py` and the router wiring) -/

/-- `get_rate_limits` in `app/security.py`: the configured per-endpoint
quotas. -/
def get_rate_limits : List (String × String) :=
  [("correction", "10/minute"), ("export", "5/minute"), ("stats", "30/minute")]

/-- The limiter decorators actually attached to the three routes in
`app/routers/feedback.py`: none.  The module computes
`rate_limits = get_rate_limits()` but never applies `limiter.limit`
to any endpoint, and `setup_security` never installs the limiter or
its exception handler on the app. -/
def appliedRouteLimits : List (String × String) := []

/-- Per-minute quota denoted by a slowapi limit string. -/
def quotaPerMinute (q : String) : Nat :=
  if q = "10/minute" then 10
  else if q = "5/minute" then 5
  else if q = "30/minute" then 30
  else 0

/-- Whether a request is allowed through, given the number of requests
the same client already made to the endpoint in the current window: a
route with no attached limiter is always allowed. -/
def allowRequest (endpoint : String) (priorInWindow : Nat) : Bool :=
  match appliedRouteLimits.lookup endpoint with
  | some q => priorInWindow < quotaPerMinute q
  | none => true

/-- Outcome of routing a request through the rate limiter. -/
inductive LimitedResult (α : Type) where
  | throttled
  | through (a : α)
deriving DecidableEq

/-- A request to an endpoint, gated by the rate limiter: when denied the
handler body is not executed. -/
def limitedCall {α : Type} (endpoint : String) (priorInWindow : Nat) (body : α) :
    LimitedResult α :=
  if allowRequest endpoint priorInWindow then .through body else .throttled

/-! ### Concrete sample data (the worked scenario of the spec) -/

/-- The raw body of the spec scenario: two adjustments, no unknown keys. -/
def sampleRaw : RawCorrection :=
  ⟨some "abc123",
   some ⟨some "Fried Rice", some 250, []⟩,
   some ⟨some "Tonkotsu Ramen", some 420, []⟩,
   some [⟨some "Egg", some (-20), none, []⟩, ⟨some "Noodles", some 50, none, []⟩],
   []⟩

/-- The validated payload of the spec scenario. -/
def samplePayload : CorrectionIn :=
  ⟨"abc123", ⟨"Fried Rice", 250⟩, ⟨"Tonkotsu Ramen", 420⟩,
   some [⟨"Egg", -20, none⟩, ⟨"Noodles", 50, none⟩]⟩

/-- A stored correction with a given id and corrected name, used to build
concrete stores for the stats examples. -/
def mkCorr (n : Nat) (lbl : String) : FeedbackCorrection :=
  ⟨n, "img", "o", 1, lbl, 1, "t"⟩

/-- A store whose corrected names are `[A, A, A, B, B, C]`. -/
def exStore1 : Store :=
  ⟨[mkCorr 1 "A", mkCorr 2 "A", mkCorr 3 "A", mkCorr 4 "B", mkCorr 5 "B", mkCorr 6 "C"],
   [], 7⟩

/-- A store whose corrected names are `[A, A, B, B]`. -/
def exStore2 : Store :=
  ⟨[mkCorr 1 "A", mkCorr 2 "A", mkCorr 3 "B", mkCorr 4 "B"], [], 5⟩

/-! ### Helper lemmas: the string and stats orders -/

lemma charListLe_total : ∀ as bs, charListLe as bs = true ∨ charListLe bs as = true := by
  intro as
  induction as with
  | nil => intro bs; left; rfl
  | cons a as ih =>
    intro bs
    cases bs with
    | nil => right; rfl
    | cons b bs =>
      rcases Nat.lt_trichotomy a.toNat b.toNat with h | h | h
      · left; simp [charListLe, h]
      · rcases ih bs with h2 | h2
        · left; simp [charListLe, h, h2]
        · right; simp [charListLe, h, h2]
      · right; simp [charListLe, h]

lemma charListLe_trans : ∀ as bs cs, charListLe as bs = true → charListLe bs cs = true →
    charListLe as cs = true := by
  intro as
  induction as with
  | nil => intro bs cs _ _; rfl
  | cons a as ih =>
    intro bs cs h1 h2
    cases bs with
    | nil => simp [charListLe] at h1
    | cons b bs =>
      cases cs with
      | nil => simp [charListLe] at h2
      | cons c cs =>
        simp only [charListLe] at h1 h2 ⊢
        rcases Nat.lt_trichotomy a.toNat b.toNat with hab | hab | hab
        · rcases Nat.lt_trichotomy b.toNat c.toNat with hbc | hbc | hbc
          · rw [if_pos (by omega : a.toNat < c.toNat)]
          · rw [if_pos (by omega : a.toNat < c.toNat)]
          · rw [if_neg (by omega : ¬ b.toNat < c.toNat),
                if_pos (by omega : c.toNat < b.toNat)] at h2
            exact Bool.noConfusion h2
        · rw [if_neg (by omega : ¬ a.toNat < b.toNat),
              if_neg (by omega : ¬ b.toNat < a.toNat)] at h1
          rcases Nat.lt_trichotomy b.toNat c.toNat with hbc | hbc | hbc
          · rw [if_pos (by omega : a.toNat < c.toNat)]
          · rw [if_neg (by omega : ¬ b.toNat < c.toNat),
                if_neg (by omega : ¬ c.toNat < b.toNat)] at h2
            rw [if_neg (by omega : ¬ a.toNat < c.toNat),
                if_neg (by omega : ¬ c.toNat < a.toNat)]
            exact ih bs cs h1 h2
          · rw [if_neg (by omega : ¬ b.toNat < c.toNat),
                if_pos (by omega : c.toNat < b.toNat)] at h2
            exact Bool.noConfusion h2
        · rw [if_neg (by omega : ¬ a.toNat < b.toNat),
              if_pos (by omega : b.toNat < a.toNat)] at h1
          exact Bool.noConfusion h1

instance : IsTotal (String × Nat) statsRel := by
  constructor
  intro a b
  rcases Nat.lt_trichotomy b.2 a.2 with h | h | h
  · exact Or.inl (Or.inl h)
  · rcases charListLe_total a.1.data b.1.data with h2 | h2
    · exact Or.inl (Or.inr ⟨h.symm, h2⟩)
    · exact Or.inr (Or.inr ⟨h, h2⟩)
  · exact Or.inr (Or.inl h)

instance : IsTrans (String × Nat) statsRel := by
  constructor
  intro a b c hab hbc
  rcases hab with hab | ⟨hab, hab2⟩
  · rcases hbc with hbc | ⟨hbc, _⟩
    · exact Or.inl (Nat.lt_trans hbc hab)
    · exact Or.inl (hbc ▸ hab)
  · rcases hbc with hbc | ⟨hbc, hbc2⟩
    · exact Or.inl (hab ▸ hbc)
    · exact Or.inr ⟨hab.trans hbc, charListLe_trans _ _ _ hab2 hbc2⟩

instance : IsTotal FeedbackCorrection (fun a b => a.id ≤ b.id) :=
  ⟨fun a b => Nat.le_total a.id b.id⟩

instance : IsTrans FeedbackCorrection (fun a b => a.id ≤ b.id) :=
  ⟨fun _ _ _ h1 h2 => Nat.le_trans h1 h2⟩

/-! ### Helper lemmas: validation -/

lemma validateDishPortion_some (o : RawDishPortion) (dp : DishPortion)
    (h : validateDishPortion o = some dp) :
    ∃ nm g, o.name = some nm ∧ o.grams = some g ∧
      1 ≤ nm.length ∧ nm.length ≤ 200 ∧ 1 ≤ g ∧ g ≤ 10000 := by
  obtain ⟨nmo, go, ex⟩ := o
  cases nmo with
  | none => simp [validateDishPortion] at h
  | some nm =>
    cases go with
    | none => simp [validateDishPortion] at h
    | some g =>
      simp only [validateDishPortion] at h
      split_ifs at h with hc
      exact ⟨nm, g, rfl, rfl, hc.1, hc.2.1, hc.2.2.1, hc.2.2.2⟩

lemma validateAdjustment_some (a : RawAdjustment) (v : IngredientAdjustmentIn)
    (h : validateAdjustment a = some v) :
    ∃ ing dg, a.ingredient = some ing ∧ a.deltaGrams = some dg ∧
      1 ≤ ing.length ∧ ing.length ≤ 100 ∧ notesOk a.notes := by
  obtain ⟨ino, dgo, nt, ex⟩ := a
  cases ino with
  | none => simp [validateAdjustment] at h
  | some ing =>
    cases dgo with
    | none => simp [validateAdjustment] at h
    | some dg =>
      simp only [validateAdjustment] at h
      split_ifs at h with hc
      exact ⟨ing, dg, rfl, rfl, hc.1, hc.2.1, hc.2.2⟩

lemma validateAdjustments_some (l : List RawAdjustment)
    (vs : List IngredientAdjustmentIn) (h : validateAdjustments l = some vs) :
    ∀ a ∈ l, validateAdjustment a ≠ none := by
  induction l generalizing vs with
  | nil => intro a ha; cases ha
  | cons b bs ih =>
    intro a ha
    rcases List.mem_cons.mp ha with rfl | hmem
    · intro hnone
      rw [validateAdjustments, hnone] at h
      cases h
    · cases hb : validateAdjustment b with
      | none => rw [validateAdjustments, hb] at h; cases h
      | some vb =>
        rw [validateAdjustments, hb] at h
        cases hbs : validateAdjustments bs with
        | none => rw [hbs] at h; cases h
        | some vbs => exact ih vbs hbs a hmem

/-! ### Claim C1 -/

/-- C1: for every POST /correction request that passes validation, the
correction row and all of its submitted adjustment rows are persisted as
a single atomic unit — afterwards either both the correction and every
adjustment exist or none do — and when the storage layer fails during
persistence (at flush or at commit) the transaction is rolled back, the
store is unchanged and a server-fault (HTTP 500) response is returned. -/
theorem post_correction_atomic (s : Store) (raw : RawCorrection) (p : CorrectionIn)
    (now : String) (fp : FailPoint) (hv : validateCorrectionIn raw = some p) :
    ((post_correction_request s raw now fp).1.corrections = s.corrections ∧
      (post_correction_request s raw now fp).1.adjustments = s.adjustments ∨
     (post_correction_request s raw now fp).1.corrections
        = s.corrections ++ [newCorrectionRow s p now] ∧
      (post_correction_request s raw now fp).1.adjustments
        = s.adjustments ++ newAdjustmentRows s.next_id p) ∧
    ((fp = .atFlush ∨ fp = .atCommit) →
      post_correction_request s raw now fp = (s, .serverError)) := by
  unfold post_correction_request
  rw [hv]
  cases fp <;> simp [post_correction]

/-- Witness for C1 at the spec scenario payload: validation succeeds, and
a storage failure at commit yields a rollback plus a 500 response. -/
theorem post_correction_atomic_witness :
    validateCorrectionIn sampleRaw = some samplePayload ∧
    post_correction_request Store.empty sampleRaw "2024-01-01T00:00:00" .atCommit
      = (Store.empty, .serverError) :=
  ⟨by decide,
   (post_correction_atomic Store.empty sampleRaw samplePayload "2024-01-01T00:00:00"
      .atCommit (by decide)).2 (Or.inr rfl)⟩

/-! ### Claim C5 -/

/-- C5: the per-endpoint quotas are configured (`get_rate_limits` maps
the correction endpoint to 10 per minute), but no route of the feedback
router has a limiter attached, so every request is allowed through no
matter how many requests preceded it in the window: the 11th POST
/correction of a minute (10 prior requests, at the configured quota of
10) still executes the handler body and persists a row, where the spec
demands a throttling error and no side effects. -/
theorem rate_limits_configured_but_not_enforced :
    get_rate_limits.lookup "correction" = some "10/minute" ∧
    quotaPerMinute "10/minute" = 10 ∧
    appliedRouteLimits = [] ∧
    (∀ endpoint priorInWindow, allowRequest endpoint priorInWindow = true) ∧
    limitedCall "correction" 10
        (post_correction_request Store.empty sampleRaw "2024-01-01T00:00:00" .noFail)
      = .through (post_correction_request Store.empty sampleRaw "2024-01-01T00:00:00" .noFail) ∧
    (post_correction_request Store.empty sampleRaw "2024-01-01T00:00:00" .noFail).1.corrections
      ≠ [] :=
  ⟨rfl, rfl, rfl, fun _ _ => rfl, rfl, by decide⟩

/-! ### Claim C6 -/

/-- C6: when the store holds zero corrections, the JSONL export is the
empty byte sequence and the CSV export is exactly the fixed header line. -/
theorem export_empty_store (s : Store) (h : s.corrections = []) :
    stream_jsonl s = "" ∧
    stream_csv s
      = "id,imageId,original_name,original_grams,corrected_name,corrected_grams,adjustments,createdAt\r\n" := by
  have hrec : exportRecords s = [] := by
    simp [exportRecords, exportRows, h, List.insertionSort]
  constructor
  · rw [stream_jsonl, hrec]; rfl
  · rw [stream_csv, hrec]; decide

/-- Witness for C6 at the empty store. -/
theorem export_empty_store_witness :
    Store.empty.corrections = [] ∧
    stream_jsonl Store.empty = "" ∧
    stream_csv Store.empty
      = "id,imageId,original_name,original_grams,corrected_name,corrected_grams,adjustments,createdAt\r\n" :=
  ⟨rfl, (export_empty_store Store.empty rfl).1, (export_empty_store Store.empty rfl).2⟩

/-! ### Claim C9 -/

/-- C9: GET /export with no `format` query parameter is accepted and
behaves exactly like `format=jsonl`; only a supplied value other than
`csv` or `jsonl` is rejected with a validation error. -/
theorem export_format_default_jsonl (s : Store) (v : String)
    (hcsv : v ≠ "csv") (hjsonl : v ≠ "jsonl") :
    export_feedback none s = export_feedback (some "jsonl") s ∧
    export_feedback none s = .ok (stream_jsonl s) "application/x-jsonlines" ∧
    export_feedback (some v) s = .validationError := by
  have hc : (v == "csv") = false := beq_eq_false_iff_ne.mpr hcsv
  have hj : (v == "jsonl") = false := beq_eq_false_iff_ne.mpr hjsonl
  exact ⟨rfl, rfl, by simp [export_feedback, formatPatternOk, hc, hj]⟩

/-- Witness for C9: the missing parameter equals `format=jsonl`, and the
unsupported value `xml` is rejected. -/
theorem export_format_default_jsonl_witness :
    export_feedback none Store.empty = export_feedback (some "jsonl") Store.empty ∧
    export_feedback none Store.empty = .ok (stream_jsonl Store.empty) "application/x-jsonlines" ∧
    export_feedback (some "xml") Store.empty = .validationError :=
  export_format_default_jsonl Store.empty "xml" (by decide) (by decide)

/-! ### Claim C7 -/

/-- A one-correction store with a single adjustment row, used as the
concrete instance for the JSONL serialization claims. -/
def c7Store : Store := ⟨[mkCorr 1 "A"], [⟨1, "Egg", -20, none⟩], 2⟩

/-- The export record of `c7Store`. -/
def c7Record : ExportRecord := ⟨mkCorr 1 "A", [⟨1, "Egg", -20, none⟩]⟩

/-- C7: in the JSONL export, the serialized object carries an
`adjustments` field if and only if the correction has at least one
adjustment; when present the field is the array of its adjustments, and
every adjustment serializes as an object with `ingredient`, `deltaGrams`
and `notes`, the latter null when not provided. -/
theorem jsonl_adjustments_present_iff (s : Store) (r : ExportRecord)
    (_hr : r ∈ exportRecords s) :
    ((jsonlObj r).fields.lookup "adjustments" ≠ none ↔ r.adjs ≠ []) ∧
    (r.adjs ≠ [] → (jsonlObj r).fields.lookup "adjustments"
        = some (.arr (r.adjs.map adjJson))) ∧
    (∀ a : IngredientAdjustment,
      adjJson a = .obj [("ingredient", .str a.ingredient),
                        ("deltaGrams", .int a.delta_grams),
                        ("notes", a.notes.elim Json.null Json.str)]) := by
  have key : ∀ rec : ExportRecord, rec.adjs ≠ [] →
      (jsonlObj rec).fields.lookup "adjustments" = some (.arr (rec.adjs.map adjJson)) := by
    intro rec hne
    simp only [jsonlObj, Json.fields, if_neg hne]
    rfl
  have keynil : ∀ rec : ExportRecord, rec.adjs = [] →
      (jsonlObj rec).fields.lookup "adjustments" = none := by
    intro rec hnil
    simp only [jsonlObj, Json.fields, if_pos hnil]
    rfl
  refine ⟨⟨fun h hnil => h (keynil r hnil), fun h => by rw [key r h]; simp⟩,
          fun h => key r h, fun a => ?_⟩
  cases hn : a.notes <;> simp [adjJson, hn]

/-- Witness for C7 at a concrete store with one adjustment. -/
theorem jsonl_adjustments_present_iff_witness :
    c7Record ∈ exportRecords c7Store ∧
    (((jsonlObj c7Record).fields.lookup "adjustments" ≠ none ↔ c7Record.adjs ≠ []) ∧
     (c7Record.adjs ≠ [] → (jsonlObj c7Record).fields.lookup "adjustments"
        = some (.arr (c7Record.adjs.map adjJson))) ∧
     (∀ a : IngredientAdjustment,
       adjJson a = .obj [("ingredient", .str a.ingredient),
                         ("deltaGrams", .int a.delta_grams),
                         ("notes", a.notes.elim Json.null Json.str)])) :=
  ⟨by decide, jsonl_adjustments_present_iff c7Store c7Record (by decide)⟩

/-! ### Claim C10 -/

/-- A dish-portion object with its unknown keys removed. -/
def RawDishPortion.dropExtra (r : RawDishPortion) : RawDishPortion :=
  ⟨r.name, r.grams, []⟩

/-- An adjustment object with its unknown keys removed. -/
def RawAdjustment.dropExtra (r : RawAdjustment) : RawAdjustment :=
  ⟨r.ingredient, r.deltaGrams, r.notes, []⟩

/-- A correction body with the unknown keys of every nested object
removed; the top-level unknown keys are kept. -/
def RawCorrection.dropNestedExtra (r : RawCorrection) : RawCorrection :=
  ⟨r.imageId, r.original.map RawDishPortion.dropExtra,
   r.corrected.map RawDishPortion.dropExtra,
   r.adjustments.map (fun l => l.map RawAdjustment.dropExtra), r.extraFields⟩

lemma validateDishPortion_dropExtra (o : RawDishPortion) :
    validateDishPortion o.dropExtra = validateDishPortion o := rfl

lemma validateAdjustment_dropExtra (a : RawAdjustment) :
    validateAdjustment a.dropExtra = validateAdjustment a := rfl

lemma validateAdjustments_dropExtra (l : List RawAdjustment) :
    validateAdjustments (l.map RawAdjustment.dropExtra) = validateAdjustments l := by
  induction l with
  | nil => rfl
  | cons a rest ih =>
      simp only [List.map_cons, validateAdjustments, validateAdjustment_dropExtra, ih]

/-- The spec scenario body with unknown keys added inside the nested
`original`, `corrected` and adjustment objects, none at the top level. -/
def c10Raw : RawCorrection :=
  ⟨some "abc123",
   some ⟨some "Fried Rice", some 250, ["sauce"]⟩,
   some ⟨some "Tonkotsu Ramen", some 420, ["spice"]⟩,
   some [⟨some "Egg", some (-20), none, ["why"]⟩, ⟨some "Noodles", some 50, none, []⟩],
   []⟩

/-- The spec scenario body with an unknown key at the top level. -/
def c10TopRaw : RawCorrection :=
  ⟨some "abc123",
   some ⟨some "Fried Rice", some 250, []⟩,
   some ⟨some "Tonkotsu Ramen", some 420, []⟩,
   some [⟨some "Egg", some (-20), none, []⟩, ⟨some "Noodles", some 50, none, []⟩],
   ["evil"]⟩

/-- C10: unknown keys nested inside `original`, `corrected` or an
adjustment object never change the validation outcome (they are silently
discarded), only top-level unknown keys cause rejection, and the
concrete payload with nested unknown keys is accepted with those keys
dropped. -/
theorem nested_unknown_fields_ignored :
    (∀ raw : RawCorrection,
      validateCorrectionIn raw.dropNestedExtra = validateCorrectionIn raw) ∧
    (∀ raw : RawCorrection, raw.extraFields ≠ [] → validateCorrectionIn raw = none) ∧
    validateCorrectionIn c10Raw = some samplePayload := by
  refine ⟨?_, ?_, by decide⟩
  · intro raw
    obtain ⟨iid, org, cor, adj, ef⟩ := raw
    simp only [RawCorrection.dropNestedExtra, validateCorrectionIn]
    cases org <;> cases cor <;> cases adj <;>
      simp only [Option.map_none', Option.map_some', validateDishPortion_dropExtra,
                 validateOptAdjustments, validateAdjustments_dropExtra]
  · intro raw h
    unfold validateCorrectionIn
    rw [if_neg h]

/-- Witness for C10: the nested-extras payload validates identically to
its stripped form, and a top-level unknown key is rejected. -/
theorem nested_unknown_fields_ignored_witness :
    validateCorrectionIn (RawCorrection.dropNestedExtra c10Raw) = validateCorrectionIn c10Raw ∧
    validateCorrectionIn c10TopRaw = none :=
  ⟨nested_unknown_fields_ignored.1 c10Raw,
   nested_unknown_fields_ignored.2.1 c10TopRaw (by decide)⟩

/-! ### Claim C8 -/

/-- A store whose table order is not the id order: the row with id 2 was
listed before the row with id 1. -/
def c8Store : Store := ⟨[mkCorr 2 "B", mkCorr 1 "A"], [], 3⟩

/-- C8: both export formats list the correction records in strictly
ascending id order, whatever the submission order: the export query sorts
by id, ids are pairwise distinct (primary key), every stored correction
appears, and both format streams are maps over that one sorted record
sequence. -/
theorem export_ascending_ids (s : Store)
    (hids : (s.corrections.map (·.id)).Nodup) :
    List.Perm (exportRows s) s.corrections ∧
    List.Pairwise (fun a b => a.id < b.id) (exportRows s) ∧
    exportRecords s = (exportRows s).map (fun c => ⟨c, loadAdjustments s c.id⟩) ∧
    stream_jsonl s
      = String.join ((exportRecords s).map (fun r => Json.dumps (jsonlObj r) ++ "\n")) ∧
    stream_csv s = csvLine csvHeaderCells ++
      String.join ((exportRecords s).map (fun r => csvLine (csvCells r))) := by
  have hperm : List.Perm (exportRows s) s.corrections :=
    List.perm_insertionSort _ _
  have hsorted : List.Pairwise (fun a b : FeedbackCorrection => a.id ≤ b.id) (exportRows s) :=
    List.sorted_insertionSort _ _
  have hnd : ((exportRows s).map (·.id)).Nodup :=
    (hperm.map (·.id)).nodup_iff.mpr hids
  have hne : List.Pairwise (fun a b : FeedbackCorrection => a.id ≠ b.id) (exportRows s) :=
    List.pairwise_map.mp hnd
  exact ⟨hperm, (hsorted.and hne).imp (fun h => Nat.lt_of_le_of_ne h.1 h.2),
         rfl, rfl, rfl⟩

/-- Witness for C8: in a store whose rows were inserted out of id order,
the export is the id-sorted permutation. -/
theorem export_ascending_ids_witness :
    (c8Store.corrections.map (·.id)).Nodup ∧
    List.Perm (exportRows c8Store) c8Store.corrections ∧
    List.Pairwise (fun a b => a.id < b.id) (exportRows c8Store) ∧
    exportRows c8Store = [mkCorr 1 "A", mkCorr 2 "B"] := by
  have h := export_ascending_ids c8Store (by decide)
  exact ⟨by decide, h.1, h.2.1, by decide⟩

/-! ### Claim C4 -/

/-- C4: GET /stats returns at most 5 groups, ordered by count descending
with ties broken by label ascending; every returned pair is a distinct
stored label with its exact count; when at most 5 distinct labels exist
all of them are returned; an empty store yields the empty list; and the
two worked examples of the spec hold. -/
theorem stats_top5_spec (s : Store) :
    (feedback_stats s).length ≤ 5 ∧
    List.Sorted statsRel (feedback_stats s) ∧
    (∀ q ∈ feedback_stats s, q.1 ∈ distinctLabels s ∧ q.2 = labelCount s q.1) ∧
    ((distinctLabels s).length ≤ 5 →
      ∀ l ∈ distinctLabels s, (l, labelCount s l) ∈ feedback_stats s) ∧
    (s.corrections = [] → feedback_stats s = []) ∧
    feedback_stats exStore1 = [("A", 3), ("B", 2), ("C", 1)] ∧
    feedback_stats exStore2 = [("A", 2), ("B", 2)] := by
  have hperm : List.Perm ((statsGroups s).insertionSort statsRel) (statsGroups s) :=
    List.perm_insertionSort _ _
  refine ⟨List.length_take_le _ _, ?_, ?_, ?_, ?_, by decide, by decide⟩
  · exact (List.sorted_insertionSort statsRel (statsGroups s)).sublist
      (List.take_sublist _ _)
  · intro q hq
    have hq2 : q ∈ statsGroups s := hperm.mem_iff.mp (List.take_subset _ _ hq)
    obtain ⟨l, hl, rfl⟩ := List.mem_map.mp hq2
    exact ⟨hl, rfl⟩
  · intro hlen l hl
    have hmem : (l, labelCount s l) ∈ statsGroups s := List.mem_map.mpr ⟨l, hl, rfl⟩
    have hlen2 : ((statsGroups s).insertionSort statsRel).length ≤ 5 := by
      rw [hperm.length_eq, statsGroups, List.length_map]
      exact hlen
    rw [feedback_stats, List.take_of_length_le hlen2]
    exact hperm.mem_iff.mpr hmem
  · intro h
    simp [feedback_stats, statsGroups, distinctLabels, correctedLabels, h,
          List.insertionSort]

/-- Witness for C4: all hypotheses discharged at concrete stores; the
label C of the six-correction example appears with count 1, and the
empty store yields the empty list. -/
theorem stats_top5_spec_witness :
    (distinctLabels exStore1).length ≤ 5 ∧
    ("C", labelCount exStore1 "C") ∈ feedback_stats exStore1 ∧
    labelCount exStore1 "C" = 1 ∧
    Store.empty.corrections = [] ∧
    feedback_stats Store.empty = [] := by
  refine ⟨by decide, ?_, by decide, rfl, ?_⟩
  · exact (stats_top5_spec exStore1).2.2.2.1 (by decide) "C" (by decide)
  · exact (stats_top5_spec Store.empty).2.2.2.2.1 rfl

/-! ### Claim C3 -/

/-- The round-trip property of a validated payload `p` posted against
store `s`: the export (in both formats) contains a record carrying
exactly the submitted scalar fields and exactly the submitted
adjustments in submission order. -/
def roundTripSpec (s : Store) (p : CorrectionIn) (now : String) : Prop :=
  ∃ r ∈ exportRecords (post_correction s p now .noFail).1,
    r.row.image_id = p.imageId ∧
    r.row.original_name = p.original.name ∧
    r.row.original_grams = p.original.grams ∧
    r.row.corrected_name = p.corrected.name ∧
    r.row.corrected_grams = p.corrected.grams ∧
    r.adjs.map (·.ingredient) = (p.adjustments.getD []).map (·.ingredient) ∧
    r.adjs.map (·.delta_grams) = (p.adjustments.getD []).map (·.deltaGrams) ∧
    r.adjs.map (·.notes) = (p.adjustments.getD []).map (·.notes) ∧
    (jsonlObj r).fields.lookup "imageId" = some (.str p.imageId) ∧
    (jsonlObj r).fields.lookup "original"
      = some (.obj [("name", .str p.original.name), ("grams", .int p.original.grams)]) ∧
    (jsonlObj r).fields.lookup "corrected"
      = some (.obj [("name", .str p.corrected.name), ("grams", .int p.corrected.grams)]) ∧
    (p.adjustments.getD [] ≠ [] → (jsonlObj r).fields.lookup "adjustments"
      = some (.arr ((newAdjustmentRows s.next_id p).map adjJson))) ∧
    csvCells r = [toString s.next_id, p.imageId, p.original.name,
      toString p.original.grams, p.corrected.name, toString p.corrected.grams,
      (if p.adjustments.getD [] = [] then ""
       else Json.dumps (.arr ((newAdjustmentRows s.next_id p).map adjJson))),
      now ++ "Z"]

lemma store_empty_wf : Store.empty.WF := by
  refine ⟨?_, ?_, ?_⟩ <;> simp [Store.empty]

lemma loadAdjustments_after_post (s : Store) (p : CorrectionIn) (now : String)
    (hwf : s.WF) :
    loadAdjustments (post_correction s p now .noFail).1 s.next_id
      = newAdjustmentRows s.next_id p := by
  obtain ⟨_, _, h3⟩ := hwf
  show (s.adjustments ++ newAdjustmentRows s.next_id p).filter
      (fun a => a.correction_id == s.next_id) = _
  rw [List.filter_append]
  have hold : s.adjustments.filter (fun a => a.correction_id == s.next_id) = [] := by
    apply List.filter_eq_nil_iff.mpr
    intro a ha
    have := h3 a ha
    simp only [beq_iff_eq]
    omega
  have hnew : (newAdjustmentRows s.next_id p).filter
      (fun a => a.correction_id == s.next_id) = newAdjustmentRows s.next_id p := by
    apply List.filter_eq_self.mpr
    intro a ha
    obtain ⟨x, _, rfl⟩ := List.mem_map.mp ha
    simp
  rw [hold, hnew, List.nil_append]

/-- C3: posting a valid payload and then reading the export yields
exactly the submitted scalar values and exactly the submitted
adjustments, in submission order, in both formats. -/
theorem post_then_export_round_trip (s : Store) (p : CorrectionIn) (now : String)
    (hwf : s.WF) : roundTripSpec s p now := by
  have hload := loadAdjustments_after_post s p now hwf
  refine ⟨⟨newCorrectionRow s p now, newAdjustmentRows s.next_id p⟩, ?_, ?_⟩
  · apply List.mem_map.mpr
    refine ⟨newCorrectionRow s p now, ?_, ?_⟩
    · apply (List.perm_insertionSort _ _).mem_iff.mpr
      show _ ∈ s.corrections ++ [_]
      simp
    · show (⟨newCorrectionRow s p now,
        loadAdjustments (post_correction s p now .noFail).1
          (newCorrectionRow s p now).id⟩ : ExportRecord) = _
      rw [show (newCorrectionRow s p now).id = s.next_id from rfl, hload]
  · have hmaps : ∀ {β : Type} (f : IngredientAdjustment → β)
        (g : IngredientAdjustmentIn → β),
        (∀ a : IngredientAdjustmentIn, f ⟨s.next_id, a.ingredient, a.deltaGrams, a.notes⟩ = g a) →
        (newAdjustmentRows s.next_id p).map f = (p.adjustments.getD []).map g := by
      intro β f g hfg
      rw [newAdjustmentRows, List.map_map]
      exact List.map_congr_left (fun a _ => hfg a)
    have hiff : (newAdjustmentRows s.next_id p = []) ↔ (p.adjustments.getD [] = []) := by
      rw [newAdjustmentRows]
      exact List.map_eq_nil_iff
    refine ⟨rfl, rfl, rfl, rfl, rfl, hmaps _ _ (fun _ => rfl), hmaps _ _ (fun _ => rfl),
            hmaps _ _ (fun _ => rfl), rfl, rfl, rfl, ?_, ?_⟩
    · intro hne
      have hne2 : newAdjustmentRows s.next_id p ≠ [] := fun h => hne (hiff.mp h)
      simp only [jsonlObj, Json.fields, if_neg hne2]
      rfl
    · show csvCells _ = _
      simp only [csvCells]
      rw [if_congr hiff rfl rfl]
      rfl

/-- Witness for C3: the spec scenario payload posted against the empty
store round-trips. -/
theorem post_then_export_round_trip_witness :
    Store.empty.WF ∧ roundTripSpec Store.empty samplePayload "2024-01-01T00:00:00" :=
  ⟨store_empty_wf,
   post_then_export_round_trip Store.empty samplePayload "2024-01-01T00:00:00" store_empty_wf⟩

/-! ### Claim C2 -/

/-- A string field that is present but outside its length bounds. -/
def optStrOut (lo hi : Nat) : Option String → Prop
  | none => False
  | some v => v.length < lo ∨ hi < v.length

instance (lo hi : Nat) (o : Option String) : Decidable (optStrOut lo hi o) :=
  match o with
  | none => .isFalse (fun h => h)
  | some v => inferInstanceAs (Decidable (v.length < lo ∨ hi < v.length))

/-- A grams field that is present but outside `[1, 10000]`. -/
def optGramsOut : Option Int → Prop
  | none => False
  | some g => g < 1 ∨ 10000 < g

instance (o : Option Int) : Decidable (optGramsOut o) :=
  match o with
  | none => .isFalse (fun h => h)
  | some g => inferInstanceAs (Decidable (g < 1 ∨ 10000 < g))

/-- A dish-portion object that is present with a required field missing. -/
def dishFieldMissing : Option RawDishPortion → Prop
  | none => False
  | some o => o.name = none ∨ o.grams = none

instance (o : Option RawDishPortion) : Decidable (dishFieldMissing o) :=
  match o with
  | none => .isFalse (fun h => h)
  | some v => inferInstanceAs (Decidable (v.name = none ∨ v.grams = none))

/-- A dish-portion object whose name is outside its length bound. -/
def dishNameOut : Option RawDishPortion → Prop
  | none => False
  | some o => optStrOut 1 200 o.name

instance (o : Option RawDishPortion) : Decidable (dishNameOut o) :=
  match o with
  | none => .isFalse (fun h => h)
  | some v => inferInstanceAs (Decidable (optStrOut 1 200 v.name))

/-- A dish-portion object whose grams value is out of range. -/
def dishGramsOut : Option RawDishPortion → Prop
  | none => False
  | some o => optGramsOut o.grams

instance (o : Option RawDishPortion) : Decidable (dishGramsOut o) :=
  match o with
  | none => .isFalse (fun h => h)
  | some v => inferInstanceAs (Decidable (optGramsOut v.grams))

/-- An adjustment object with a missing required field, an ingredient
outside 1 to 100 characters, or notes longer than 500 characters. -/
def adjBad (a : RawAdjustment) : Prop :=
  a.ingredient = none ∨ a.deltaGrams = none ∨
  optStrOut 1 100 a.ingredient ∨ optStrOut 0 500 a.notes

instance (a : RawAdjustment) : Decidable (adjBad a) := by
  unfold adjBad
  infer_instance

/-- A submitted adjustment list containing a bad element. -/
def someAdjBad : Option (List RawAdjustment) → Prop
  | none => False
  | some l => ∃ a ∈ l, adjBad a

instance (o : Option (List RawAdjustment)) : Decidable (someAdjBad o) :=
  match o with
  | none => .isFalse (fun h => h)
  | some l => inferInstanceAs (Decidable (∃ a ∈ l, adjBad a))

/-- The rejection causes enumerated by claim C2: a missing required
field at any level, a string outside its length bound (imageId and dish
names 1 to 200, ingredient 1 to 100, notes at most 500), a grams value
outside `[1, 10000]`, or an unknown top-level field. -/
def rejectCause (r : RawCorrection) : Prop :=
  r.imageId = none ∨ r.original = none ∨ r.corrected = none ∨
  dishFieldMissing r.original ∨ dishFieldMissing r.corrected ∨
  someAdjBad r.adjustments ∨
  optStrOut 1 200 r.imageId ∨
  dishNameOut r.original ∨ dishNameOut r.corrected ∨
  dishGramsOut r.original ∨ dishGramsOut r.corrected ∨
  r.extraFields ≠ []

instance (r : RawCorrection) : Decidable (rejectCause r) := by
  unfold rejectCause
  infer_instance

lemma validateDishPortion_none_of (o : RawDishPortion)
    (h : o.name = none ∨ o.grams = none ∨ optStrOut 1 200 o.name ∨ optGramsOut o.grams) :
    validateDishPortion o = none := by
  obtain ⟨nmo, go, ex⟩ := o
  cases nmo with
  | none => rfl
  | some nm =>
    cases go with
    | none =>
      cases hg : validateDishPortion ⟨some nm, none, ex⟩
      · rfl
      · simp [validateDishPortion] at hg
    | some g =>
      have hneg : ¬ (1 ≤ nm.length ∧ nm.length ≤ 200 ∧ 1 ≤ g ∧ g ≤ 10000) := by
        rcases h with h | h | h | h
        · simp at h
        · simp at h
        · simp only [optStrOut] at h
          rcases h with h | h <;> (intro hc; omega)
        · simp only [optGramsOut] at h
          rcases h with h | h <;> (intro hc; omega)
      simp only [validateDishPortion, if_neg hneg]

lemma validateAdjustment_none_of (a : RawAdjustment) (h : adjBad a) :
    validateAdjustment a = none := by
  obtain ⟨ino, dgo, nto, ex⟩ := a
  unfold adjBad at h
  cases ino with
  | none => rfl
  | some ing =>
    cases dgo with
    | none =>
      cases hg : validateAdjustment ⟨some ing, none, nto, ex⟩
      · rfl
      · simp [validateAdjustment] at hg
    | some dg =>
      have hneg : ¬ (1 ≤ ing.length ∧ ing.length ≤ 100 ∧ notesOk nto) := by
        rcases h with h | h | h | h
        · simp at h
        · simp at h
        · simp only [optStrOut] at h
          rcases h with h | h <;> (intro hc; omega)
        · cases nto with
          | none => exact h.elim
          | some n =>
            simp only [optStrOut] at h
            intro hc
            have hn : n.length ≤ 500 := hc.2.2
            rcases h with h | h <;> omega
      simp only [validateAdjustment, if_neg hneg]

lemma validateAdjustments_none_of_mem (l : List RawAdjustment) (a : RawAdjustment)
    (ha : a ∈ l) (h : validateAdjustment a = none) :
    validateAdjustments l = none := by
  induction l with
  | nil => cases ha
  | cons b bs ih =>
    rcases List.mem_cons.mp ha with rfl | hmem
    · cases hbs : validateAdjustments bs <;> simp [validateAdjustments, h, hbs]
    · have hbs := ih hmem
      cases hvb : validateAdjustment b <;> simp [validateAdjustments, hvb, hbs]

lemma validateOptAdjustments_none_of (o : Option (List RawAdjustment))
    (h : someAdjBad o) : validateOptAdjustments o = none := by
  cases o with
  | none => exact h.elim
  | some l =>
    obtain ⟨a, ha, hbad⟩ := h
    simp only [validateOptAdjustments,
      validateAdjustments_none_of_mem l a ha (validateAdjustment_none_of a hbad),
      Option.map_none']

lemma validateCorrectionIn_none_of (r : RawCorrection) (h : rejectCause r) :
    validateCorrectionIn r = none := by
  obtain ⟨iid, org, cor, adj, ef⟩ := r
  unfold rejectCause at h
  by_cases hef : ef = []
  case neg =>
    unfold validateCorrectionIn
    rw [if_neg hef]
  case pos =>
    subst hef
    unfold validateCorrectionIn
    rw [if_pos rfl]
    dsimp only at h ⊢
    cases iid with
    | none => rfl
    | some img =>
      dsimp only
      by_cases himg : 1 ≤ img.length ∧ img.length ≤ 200
      case neg => rw [if_neg himg]
      case pos =>
        rw [if_pos himg]
        cases org with
        | none => rfl
        | some o =>
          dsimp only
          cases hvo : validateDishPortion o with
          | none => rfl
          | some op =>
            dsimp only
            cases cor with
            | none => rfl
            | some c =>
              dsimp only
              cases hvc : validateDishPortion c with
              | none => rfl
              | some cp =>
                dsimp only
                cases hva : validateOptAdjustments adj with
                | none => rfl
                | some vadj =>
                  exfalso
                  obtain ⟨onm, og, hon, hog, hon1, hon2, hog1, hog2⟩ :=
                    validateDishPortion_some o op hvo
                  obtain ⟨cnm, cg, hcn, hcg, hcn1, hcn2, hcg1, hcg2⟩ :=
                    validateDishPortion_some c cp hvc
                  rcases h with h | h | h | h | h | h | h | h | h | h | h | h
                  · simp at h
                  · simp at h
                  · simp at h
                  · simp only [dishFieldMissing] at h
                    rcases h with h | h
                    · rw [hon] at h; simp at h
                    · rw [hog] at h; simp at h
                  · simp only [dishFieldMissing] at h
                    rcases h with h | h
                    · rw [hcn] at h; simp at h
                    · rw [hcg] at h; simp at h
                  · have := validateOptAdjustments_none_of adj h
                    rw [this] at hva
                    exact Option.noConfusion hva
                  · simp only [optStrOut] at h
                    rcases h with h | h <;> omega
                  · simp only [dishNameOut] at h
                    rw [hon] at h
                    simp only [optStrOut] at h
                    rcases h with h | h <;> omega
                  · simp only [dishNameOut] at h
                    rw [hcn] at h
                    simp only [optStrOut] at h
                    rcases h with h | h <;> omega
                  · simp only [dishGramsOut] at h
                    rw [hog] at h
                    simp only [optGramsOut] at h
                    rcases h with h | h <;> omega
                  · simp only [dishGramsOut] at h
                    rw [hcg] at h
                    simp only [optGramsOut] at h
                    rcases h with h | h <;> omega
                  · exact h rfl

/-- The invalid body of the repository test
`test_correction_validation_invalid_grams`: original grams 0. -/
def c2Raw : RawCorrection :=
  ⟨some "test123",
   some ⟨some "Test Dish", some 0, []⟩,
   some ⟨some "Corrected Dish", some 100, []⟩,
   none, []⟩

/-- C2: a POST /correction payload with a missing required field, a
string outside its length bound, a grams value outside `[1, 10000]`, or
an unknown top-level field is rejected with a validation error and
persists nothing: the store is unchanged, so the subsequent export and
stats output are exactly those of the store before the request. -/
theorem invalid_payload_rejected (s : Store) (raw : RawCorrection) (now : String)
    (fp : FailPoint) (h : rejectCause raw) :
    post_correction_request s raw now fp = (s, .validationError) ∧
    stream_jsonl (post_correction_request s raw now fp).1 = stream_jsonl s ∧
    stream_csv (post_correction_request s raw now fp).1 = stream_csv s ∧
    feedback_stats (post_correction_request s raw now fp).1 = feedback_stats s := by
  have hv := validateCorrectionIn_none_of raw h
  have hreq : post_correction_request s raw now fp = (s, .validationError) := by
    unfold post_correction_request
    rw [hv]
  exact ⟨hreq, by rw [hreq], by rw [hreq], by rw [hreq]⟩

/-- Witness for C2 at the zero-grams payload: rejected, nothing
persisted, export unchanged. -/
theorem invalid_payload_rejected_witness :
    rejectCause c2Raw ∧
    post_correction_request Store.empty c2Raw "t" .noFail
      = (Store.empty, .validationError) ∧
    stream_jsonl (post_correction_request Store.empty c2Raw "t" .noFail).1
      = stream_jsonl Store.empty :=
  ⟨by decide,
   (invalid_payload_rejected Store.empty c2Raw "t" .noFail (by decide)).1,
   (invalid_payload_rejected Store.empty c2Raw "t" .noFail (by decide)).2.1⟩

end WowNum
